import Mathlib

/-!
Shallow embedding of the session and capability-negotiation layer of an MCP
server starter written in TypeScript, together with theorems checking its
natural-language specification against the code.

Embedded source files:
* `src/session-manager.ts`  — `SessionManager` (capability negotiation, the
  session store, idle cleanup);
* `src/sse-transport.ts`    — `SSETransportManager` (streaming sessions,
  message submission, idempotent removal, stale sweep);
* `src/enhanced-http-handler.ts` — `EnhancedHttpHandler` (JSON-RPC routing
  with the capability gate) plus the tool implementations of `src/tools.ts`;
* `index.ts`                — the `/messages` endpoint glue.

Modelling conventions:
* JavaScript `Map`s become association lists (`List (String × α)`) with
  `mapGet` / `mapSet` / `mapDelete` mirroring `get` / `set` / `delete`
  (insertion order preserved, `set` overwrites in place).
* `Date` values become `Nat` millisecond timestamps; every operation that
  reads the ambient clock takes the current time as an explicit argument.
* Optional object-valued capability fields (`tools?: {}` …) are modelled by
  their JavaScript truthiness as `Bool`; the open-ended `experimental`
  record becomes `Option (List (String × Bool))` where the `Bool` is the
  truthiness of the stored value.
* Effectful external collaborators (`Math.random`, `Date` formatting, the
  calculator's JS `eval`) are supplied through an explicit `Env` record.
-/

namespace MCP

/-- Lookup in an association-list model of a JavaScript `Map`: the value of
the first (and, for genuine `Map` states, only) entry with the given key. -/
def mapGet {α : Type} (l : List (String × α)) (k : String) : Option α :=
  (l.find? (fun p => p.1 == k)).map Prod.snd

/-- `Map.set`: overwrite the entry for the key in place, or append a new
entry, preserving insertion order. -/
def mapSet {α : Type} : List (String × α) → String → α → List (String × α)
  | [], k, v => [(k, v)]
  | (k', v') :: t, k, v => if k' == k then (k, v) :: t else (k', v') :: mapSet t k v

/-- `Map.delete`: remove the (unique) entry for the key, if present. -/
def mapDelete {α : Type} (l : List (String × α)) (k : String) : List (String × α) :=
  l.eraseP (fun p => p.1 == k)

/-- Client-advertised capabilities (`ClientCapabilities`): optional
object-valued fields modelled by their truthiness. -/
structure ClientCapabilities where
  tools : Bool := false
  resources : Bool := false
  prompts : Bool := false
  logging : Bool := false
  sampling : Bool := false
  experimental : Option (List (String × Bool)) := none
deriving DecidableEq

/-- Server-advertised capabilities (`ServerCapabilities`), same convention. -/
structure ServerCapabilities where
  tools : Bool := false
  resources : Bool := false
  prompts : Bool := false
  logging : Bool := false
  experimental : Option (List (String × Bool)) := none
deriving DecidableEq

/-- The `NegotiatedCapabilities` interface of `session-manager.ts`. -/
structure NegotiatedCapabilities where
  tools : Bool
  resources : Bool
  prompts : Bool
  logging : Bool
  sampling : Bool
  experimental : Option (List (String × Bool)) := none
deriving DecidableEq

/-- Truthiness of a named property of an `experimental` record
(`record[key]` evaluated as a boolean). -/
def expListLookup (l : List (String × Bool)) (k : String) : Bool :=
  ((l.find? (fun p => p.1 == k)).map Prod.snd).getD false

/-- Truthiness of `record?.[key]` for a possibly absent `experimental`
record. -/
def expTruthy (e : Option (List (String × Bool))) (k : String) : Bool :=
  match e with
  | none => false
  | some l => expListLookup l k

/-- The experimental-feature loop of `negotiateCapabilities`: keep every
client entry whose value is truthy and whose key the server's experimental
record also marks truthy, and map it to `true`. -/
def negotiateExperimentalList (se ce : List (String × Bool)) : List (String × Bool) :=
  (ce.filter (fun p => p.2 && expListLookup se p.1)).map (fun p => (p.1, true))

/-- The `clientInfo` pair stored in a session. -/
structure ClientInfo where
  name : String := ""
  version : String := ""
deriving DecidableEq

/-- The `ManagedSession` interface of `session-manager.ts`.  `metadata` is a
free-form string map (`Record<string, any>` restricted to the string values
actually stored by this program); timestamps are `Nat` milliseconds. -/
structure ManagedSession where
  id : String
  clientInfo : ClientInfo
  protocolVersion : String
  clientCapabilities : ClientCapabilities
  negotiatedCapabilities : NegotiatedCapabilities
  metadata : List (String × String)
  createdAt : Nat
  lastActivity : Nat
deriving DecidableEq

/-- The `SessionManager` class state: its server capabilities (fixed at
construction) and the `sessions` map. -/
structure SessionManager where
  serverCapabilities : ServerCapabilities
  sessions : List (String × ManagedSession)
deriving DecidableEq

/-- The default server capabilities installed by the `SessionManager`
constructor (and by `EnhancedMCPServer`): `tools`, `resources`, `prompts`
and `logging` all advertised, no `experimental` record. -/
def defaultServerCapabilities : ServerCapabilities :=
  { tools := true, resources := true, prompts := true, logging := true }

/-- `SessionManager.negotiateCapabilities`: start from all-false, enable the
four symmetric keys when both sides advertise them, enable `sampling` from
the client alone, and intersect `experimental` per key when both sides carry
an experimental record. -/
def SessionManager.negotiateCapabilities (m : SessionManager)
    (clientCapabilities : ClientCapabilities) : NegotiatedCapabilities :=
  { tools := m.serverCapabilities.tools && clientCapabilities.tools
    resources := m.serverCapabilities.resources && clientCapabilities.resources
    prompts := m.serverCapabilities.prompts && clientCapabilities.prompts
    logging := m.serverCapabilities.logging && clientCapabilities.logging
    sampling := clientCapabilities.sampling
    experimental :=
      match clientCapabilities.experimental, m.serverCapabilities.experimental with
      | some ce, some se => some (negotiateExperimentalList se ce)
      | _, _ => none }

/-- `SessionManager.createSession`: negotiate, build the record with both
timestamps stamped to now and empty metadata, and `set` it into the map
(silently overwriting any prior record for the same id).  Total: it never
fails. -/
def SessionManager.createSession (m : SessionManager) (sessionId : String)
    (clientInfo : ClientInfo) (protocolVersion : String)
    (clientCapabilities : ClientCapabilities) (now : Nat) :
    ManagedSession × SessionManager :=
  let negotiatedCapabilities := m.negotiateCapabilities clientCapabilities
  let session : ManagedSession :=
    { id := sessionId, clientInfo := clientInfo, protocolVersion := protocolVersion
      clientCapabilities := clientCapabilities
      negotiatedCapabilities := negotiatedCapabilities
      metadata := [], createdAt := now, lastActivity := now }
  (session, { m with sessions := mapSet m.sessions sessionId session })

/-- `SessionManager.getSession`: on a hit, touch `lastActivity` (the source
mutates the stored record in place) and return the touched record. -/
def SessionManager.getSession (m : SessionManager) (sessionId : String) (now : Nat) :
    Option ManagedSession × SessionManager :=
  match mapGet m.sessions sessionId with
  | none => (none, m)
  | some session =>
      let s' := { session with lastActivity := now }
      (some s', { m with sessions := mapSet m.sessions sessionId s' })

/-- The keys of `NegotiatedCapabilities` (`keyof NegotiatedCapabilities`). -/
inductive CapKey where
  | tools
  | resources
  | prompts
  | logging
  | sampling
  | experimental
deriving DecidableEq

/-- Truthiness of `negotiatedCapabilities[capability]`
(`!!session.negotiatedCapabilities[capability]`); for `experimental` this is
the truthiness of the record object itself, i.e. its presence. -/
def NegotiatedCapabilities.truthy (n : NegotiatedCapabilities) : CapKey → Bool
  | .tools => n.tools
  | .resources => n.resources
  | .prompts => n.prompts
  | .logging => n.logging
  | .sampling => n.sampling
  | .experimental => n.experimental.isSome

/-- `SessionManager.hasCapability`: `false` when the session is absent,
otherwise the truthiness of the negotiated entry.  The method performs no
write, which the state component of the result records explicitly. -/
def SessionManager.hasCapability (m : SessionManager) (sessionId : String)
    (capability : CapKey) : Bool × SessionManager :=
  match mapGet m.sessions sessionId with
  | none => (false, m)
  | some session => (session.negotiatedCapabilities.truthy capability, m)

/-- `SessionManager.removeSession`: delete if present (a no-op otherwise). -/
def SessionManager.removeSession (m : SessionManager) (sessionId : String) :
    SessionManager :=
  { m with sessions := mapDelete m.sessions sessionId }

/-- `SessionManager.getActiveSessions` (`listActive`): the values snapshot. -/
def SessionManager.getActiveSessions (m : SessionManager) : List ManagedSession :=
  m.sessions.map Prod.snd

/-- `SessionManager.cleanupStaleSessions`: iterate over the session map and
`removeSession` every entry whose inactivity strictly exceeds the threshold.
The source iterates the live `Map` while deleting only the entry under the
cursor, which visits exactly the entries of the initial snapshot, so the
fold over the snapshot is the faithful rendering. -/
def SessionManager.cleanupStaleSessions (m : SessionManager)
    (maxInactivityMs : Nat) (now : Nat) : SessionManager :=
  m.sessions.foldl
    (fun acc p =>
      if now - p.2.lastActivity > maxInactivityMs then acc.removeSession p.1 else acc)
    m

/-- `SessionManager.getSessionCapabilities`: the server capabilities
filtered by what was negotiated for the session (empty when the session is
absent); experimental keys copy the server-side value per negotiated key. -/
def SessionManager.getSessionCapabilities (m : SessionManager) (sessionId : String) :
    ServerCapabilities :=
  match mapGet m.sessions sessionId with
  | none => {}
  | some session =>
      { tools := if session.negotiatedCapabilities.tools then m.serverCapabilities.tools else false
        resources := if session.negotiatedCapabilities.resources then m.serverCapabilities.resources else false
        prompts := if session.negotiatedCapabilities.prompts then m.serverCapabilities.prompts else false
        logging := if session.negotiatedCapabilities.logging then m.serverCapabilities.logging else false
        experimental :=
          match session.negotiatedCapabilities.experimental with
          | none => none
          | some negExp =>
              some ((negExp.filter
                  (fun p => p.2 && expTruthy m.serverCapabilities.experimental p.1)).map
                (fun p => (p.1, expTruthy m.serverCapabilities.experimental p.1))) }

/-- `SessionManager.clearAllSessions`. -/
def SessionManager.clearAllSessions (m : SessionManager) : SessionManager :=
  { m with sessions := [] }

/-! Specification-side definitions, written from the spec's words, to be
compared with the definitions extracted from the source. -/

/-- The spec's per-key negotiation rule table (§4.1) for the five named
capability keys: the four symmetric keys require both sides, `sampling`
follows the client alone.  The table has no row for the bare `experimental`
key, so that case is mapped to `false` here and excluded by hypothesis in
the theorems that use this table. -/
def specCapabilityRule (sc : ServerCapabilities) (cc : ClientCapabilities) :
    CapKey → Bool
  | .tools => sc.tools && cc.tools
  | .resources => sc.resources && cc.resources
  | .prompts => sc.prompts && cc.prompts
  | .logging => sc.logging && cc.logging
  | .sampling => cc.sampling
  | .experimental => false

/-- Whether the server advertises a capability key (field truthiness; the
server type has no `sampling` field, so that key is never advertised). -/
def ServerCapabilities.advertises (sc : ServerCapabilities) : CapKey → Bool
  | .tools => sc.tools
  | .resources => sc.resources
  | .prompts => sc.prompts
  | .logging => sc.logging
  | .sampling => false
  | .experimental => sc.experimental.isSome

/-- Whether the client advertises a capability key (field truthiness). -/
def ClientCapabilities.advertises (cc : ClientCapabilities) : CapKey → Bool
  | .tools => cc.tools
  | .resources => cc.resources
  | .prompts => cc.prompts
  | .logging => cc.logging
  | .sampling => cc.sampling
  | .experimental => cc.experimental.isSome

/-- Whether the client advertises a particular experimental sub-key: its
experimental record carries an entry for that key with a truthy value.
(Stated as existence of a truthy entry, which for genuine JavaScript
objects — unique keys — coincides with property lookup.) -/
def clientAdvertisesExperimentalKey (cc : ClientCapabilities) (k : String) : Bool :=
  match cc.experimental with
  | none => false
  | some ce => ce.any (fun p => p.1 == k && p.2)

/-! SSE transport layer (`sse-transport.ts` and the `/messages` endpoint of
`index.ts`). -/

/-- The externally provided `SSEServerTransport` bound to a session, reduced
to the observable behavior the manager depends on: whether it has been
closed, and the environment-determined outcomes of its two fallible
operations (`close()` rejecting, `handlePostMessage` throwing). -/
structure SSETransport where
  closed : Bool := false
  closeFails : Bool := false
  handlePostFails : Bool := false
deriving DecidableEq

/-- `transport.close()`: resolves (marking the transport closed) or rejects,
per the environment flag. -/
def SSETransport.close (t : SSETransport) : Except String SSETransport :=
  if t.closeFails then Except.error "close failed" else Except.ok { t with closed := true }

/-- The `SSESession` interface of `sse-transport.ts` (the `server` handle is
opaque glue and not modelled). -/
structure SSESession where
  id : String
  transport : SSETransport
  capabilities : List (String × String) := []
  createdAt : Nat
  lastActivity : Nat
deriving DecidableEq

/-- The `SSETransportManager` class state: its `sessions` map.  (The
`cleanupInterval` timer handle only carries scheduling, which is real time
and outside the state model; the tick body is `cleanupTick` below.) -/
structure SSETransportManager where
  sessions : List (String × SSESession)
deriving DecidableEq

/-- `SSETransportManager.removeSession`: when the session is present, invoke
`transport.close()` — swallowing a rejection (`.catch` only logs) — and
delete the entry; otherwise do nothing.  The result carries the new state,
the number of `close()` invocations made by this call, and the error
surfaced to the caller (`none` in every path: the method never throws). -/
def SSETransportManager.removeSession (m : SSETransportManager) (sessionId : String) :
    SSETransportManager × Nat × Option String :=
  match mapGet m.sessions sessionId with
  | none => (m, 0, none)
  | some session =>
      (⟨mapDelete m.sessions sessionId⟩, 1,
        match session.transport.close with
        | Except.ok _ => none
        | Except.error _ => none)

/-- Iterated `removeSession` on the same id (state component only). -/
def removeSessionIter (m : SSETransportManager) (sessionId : String) : Nat → SSETransportManager
  | 0 => m
  | n + 1 => ((removeSessionIter m sessionId n).removeSession sessionId).1

/-- `SSETransportManager.getActiveSessions`. -/
def SSETransportManager.getActiveSessions (m : SSETransportManager) : List SSESession :=
  m.sessions.map Prod.snd

/-- The hardcoded stale timeout of the SSE cleanup interval (5 minutes in
milliseconds). -/
def sseStaleTimeout : Nat := 5 * 60 * 1000

/-- The body of one tick of `startCleanupInterval`: remove every session
whose inactivity strictly exceeds `sseStaleTimeout`.  As with
`cleanupStaleSessions`, iterating the live `Map` while deleting only the
entry under the cursor visits exactly the initial snapshot. -/
def SSETransportManager.cleanupTick (m : SSETransportManager) (now : Nat) :
    SSETransportManager :=
  m.sessions.foldl
    (fun acc p =>
      if now - p.2.lastActivity > sseStaleTimeout then (acc.removeSession p.1).1 else acc)
    m

/-- A JSON-RPC request identifier (`string | number | null`). -/
inductive JsonId where
  | str (s : String)
  | num (n : Int)
  | null
deriving DecidableEq

/-- JavaScript falsiness of an identifier value. -/
def JsonId.isFalsy : JsonId → Bool
  | .str s => s.isEmpty
  | .num n => n == 0
  | .null => true

/-- `body?.id || null`: `null` when the body is absent or carries no truthy
id (the model collapses an absent body and an absent/falsy `id` field into
`none`/falsy). -/
def bodyIdOrNull (body : Option JsonId) : JsonId :=
  match body with
  | none => JsonId.null
  | some i => if i.isFalsy then JsonId.null else i

/-- The observable outcome of `SSETransportManager.handleMessage`: the 404
session-not-found response, a successful forward to the transport's inbound
handler, the 500 structured error sent when the handler throws before
headers were sent, or a logged-only error when headers were already sent. -/
inductive HandleMessageOutcome where
  | sessionNotFound (status : Nat) (code : Int) (respId : JsonId)
  | forwarded
  | handlerError (status : Nat) (code : Int) (respId : JsonId)
  | errorLoggedOnly
deriving DecidableEq

/-- `SSETransportManager.handleMessage`: absent session responds 404 with
code -32000 and id null without touching state; a present session first has
`lastActivity` touched, then the payload is forwarded; a throwing handler is
caught and answered with a 500 / -32603 structured error when headers were not
yet sent (logged only otherwise).  Total: nothing escapes uncaught. -/
def SSETransportManager.handleMessage (m : SSETransportManager) (sessionId : String)
    (headersSent : Bool) (body : Option JsonId) (now : Nat) :
    HandleMessageOutcome × SSETransportManager :=
  match mapGet m.sessions sessionId with
  | none => (HandleMessageOutcome.sessionNotFound 404 (-32000) JsonId.null, m)
  | some session =>
      let s' := { session with lastActivity := now }
      let m' : SSETransportManager := ⟨mapSet m.sessions sessionId s'⟩
      if session.transport.handlePostFails then
        if headersSent then (HandleMessageOutcome.errorLoggedOnly, m')
        else (HandleMessageOutcome.handlerError 500 (-32603) (bodyIdOrNull body), m')
      else (HandleMessageOutcome.forwarded, m')

/-- JavaScript falsiness of the optional `sessionId` query parameter. -/
def strFalsy : Option String → Bool
  | none => true
  | some s => s.isEmpty

/-- The observable outcome of the `/messages` endpoint: rejected before the
manager is consulted, or delegated to `handleMessage`. -/
inductive PostMessagesOutcome where
  | rejected (status : Nat) (code : Int) (message : String) (respId : JsonId)
  | handled (h : HandleMessageOutcome)
deriving DecidableEq

/-- The `app.post('/messages')` handler of `index.ts`: a missing (falsy)
`sessionId` query parameter is rejected with 400 / -32600 before any session
lookup; otherwise the message is delegated to `handleMessage`.  (The model
assumes the SSE manager initialized successfully; the `!sseManager` 500
branch reflects process-startup failure outside the modelled state.) -/
def postMessages (m : SSETransportManager) (sessionId : Option String)
    (headersSent : Bool) (body : Option JsonId) (now : Nat) :
    PostMessagesOutcome × SSETransportManager :=
  if strFalsy sessionId then
    (PostMessagesOutcome.rejected 400 (-32600) "Session ID is required" JsonId.null, m)
  else
    let r := m.handleMessage (sessionId.getD "") headersSent body now
    (PostMessagesOutcome.handled r.1, r.2)

/-! Tools (`tools.ts`).  Each tool catches internally and returns a
`ToolResult`; none of them throws to the caller. -/

/-- External effects consumed by the tools: the ambient clock, one
`Math.random()` draw in `[0, 1)`, the calculator's JS expression evaluator
(an oracle for `Function('return (...)')`), and `Date` formatting.  JS
numbers are idealized as rationals. -/
structure Env where
  now : Nat := 0
  randomUnit : ℚ := 0
  evalNumber : String → Except String ℚ := fun _ => Except.error "eval unavailable"
  isoOf : Nat → String := fun _ => ""
  localeOf : Nat → String := fun _ => ""

/-- The `ToolResult` interface: success flag plus optional content or error
text.  (The free-form diagnostic `metadata` record, never read by the
router, is not modelled.) -/
structure ToolResult where
  success : Bool
  content : Option String := none
  error : Option String := none
deriving DecidableEq

/-- JavaScript falsiness of an optional string argument (`!x` for
`undefined` or an empty string). -/
def jsFalsyStr : Option String → Bool
  | none => true
  | some s => s.isEmpty

/-- Template-literal rendering of an optional string (`undefined` prints as
the word). -/
def jsDisplay (o : Option String) : String := o.getD "undefined"

/-- `echoTool`. -/
def echoTool (message : Option String) : ToolResult :=
  if jsFalsyStr message then { success := false, error := some "Message is required" }
  else { success := true, content := some ("Echo: " ++ message.getD "") }

/-- Characters accepted by the calculator's safety pattern
(digits, the four operators, parentheses, decimal point, whitespace). -/
def safeExprChar (c : Char) : Bool :=
  c.isDigit || c == '+' || c == '-' || c == '*' || c == '/' || c == '(' || c == ')'
    || c == '.' || c.isWhitespace

/-- Whitespace removal (`replace(/\s/g, '')`). -/
def removeWhitespace (s : String) : String :=
  String.mk (s.data.filter (fun c => !c.isWhitespace))

/-- `calculatorTool`: validate, then evaluate through the environment's
expression oracle; an evaluation failure is reported as a failed result. -/
def calculatorTool (env : Env) (expression : Option String) : ToolResult :=
  if jsFalsyStr expression then
    { success := false, error := some "Expression is required" }
  else
    let expr := expression.getD ""
    let cleanExpression := removeWhitespace expr
    if !(!cleanExpression.isEmpty && cleanExpression.data.all safeExprChar) then
      { success := false, error := some "Expression contains invalid characters" }
    else
      match env.evalNumber cleanExpression with
      | Except.ok r => { success := true, content := some (expr ++ " = " ++ toString r) }
      | Except.error e =>
          { success := false, error := some ("Invalid expression: " ++ e) }

/-- `timestampTool`: `unix` is seconds (floored), `locale` and `iso`
delegate to the environment's formatters; unknown or absent formats default
to iso.  Never fails. -/
def timestampTool (env : Env) (format : Option String) : ToolResult :=
  let formatted :=
    match format.map String.toLower with
    | some "unix" => toString (env.now / 1000)
    | some "locale" => env.localeOf env.now
    | _ => env.isoOf env.now
  { success := true, content := some formatted }

/-- `randomNumberTool`: defaults min 0 / max 100 / integer, rejects
`min > max` with a failed result before drawing, otherwise scales the
environment's random draw into the range (floored when integral). -/
def randomNumberTool (env : Env) (minArg maxArg : Option ℚ)
    (isIntegerArg : Option Bool) : ToolResult :=
  let minV := minArg.getD 0
  let maxV := maxArg.getD 100
  let isInt := isIntegerArg.getD true
  if minV > maxV then
    { success := false, error := some "Minimum value cannot be greater than maximum value" }
  else
    let randomNum := env.randomUnit * (maxV - minV) + minV
    let rounded := if isInt then ((randomNum.floor : Int) : ℚ) else randomNum
    { success := true, content := some (toString rounded) }

/-- Word counting for the `words` operation (`trim().split(/\s+/)` with
empty pieces dropped). -/
def wordCount (text : String) : Nat :=
  ((text.split (fun c => c.isWhitespace)).filter (fun w => !w.isEmpty)).length

/-- `stringTool`: five string transforms; string length idealized as code
points. -/
def stringTool (text : Option String) (operation : Option String) : ToolResult :=
  if jsFalsyStr text then { success := false, error := some "Text is required" }
  else
    let t := text.getD ""
    match operation with
    | some "uppercase" => { success := true, content := some t.toUpper }
    | some "lowercase" => { success := true, content := some t.toLower }
    | some "reverse" => { success := true, content := some (String.mk t.data.reverse) }
    | some "length" => { success := true, content := some (toString t.length) }
    | some "words" =>
        { success := true, content := some ("Word count: " ++ toString (wordCount t)) }
    | _ =>
        { success := false, error := some ("Unknown operation: " ++ jsDisplay operation) }

/-- The tool names of `getToolDefinitions` (the accompanying static JSON
input schemas are data the router never consults and are not modelled). -/
def getToolDefinitionNames : List String :=
  ["echo", "calculate", "get_timestamp", "random_number", "string_manipulation"]

/-- The `tools/call` arguments map, projected to the fields the five tools
read (`args.message`, `args.expression`, …); absent fields are `none`. -/
structure ToolArgs where
  message : Option String := none
  expression : Option String := none
  format : Option String := none
  min : Option ℚ := none
  max : Option ℚ := none
  isInteger : Option Bool := none
  text : Option String := none
  operation : Option String := none

/-- The tool-name switch inside `tools/call`: dispatch to a tool
implementation, or `none` for the `throw new Error('Unknown tool: …')`
default branch (the only throw the surrounding `catch` can see, since every
tool returns its failures). -/
def toolDispatch (env : Env) (name : String) (args : ToolArgs) : Option ToolResult :=
  if name = "echo" then some (echoTool args.message)
  else if name = "calculate" then some (calculatorTool env args.expression)
  else if name = "get_timestamp" then some (timestampTool env args.format)
  else if name = "random_number" then
    some (randomNumberTool env args.min args.max args.isInteger)
  else if name = "string_manipulation" then some (stringTool args.text args.operation)
  else none

/-! Placeholder substitution (`prompts/get`). -/

/-- First-occurrence replacement on character lists: replace the leftmost
occurrence of `pat` by `rep`, or return the list unchanged when `pat` does
not occur (JavaScript `String.prototype.replace` with a string pattern). -/
def replaceFirstList (pat rep : List Char) : List Char → List Char
  | [] => if pat.isPrefixOf ([] : List Char) then rep else []
  | c :: cs =>
      if pat.isPrefixOf (c :: cs) then rep ++ (c :: cs).drop pat.length
      else c :: replaceFirstList pat rep cs

/-- First-occurrence replacement on strings. -/
def stringReplaceFirst (s pat rep : String) : String :=
  String.mk (replaceFirstList pat.data rep.data s.data)

/-- The placeholder pattern built for a key (the template string
`\x7b\x7bkey\x7d\x7d` of the source). -/
def placeholderPattern (key : String) : String :=
  "\x7b\x7b" ++ key ++ "\x7d\x7d"

/-- The substitution loop of `prompts/get`: one `replace` pass per supplied
argument, each replacing only the first occurrence of its placeholder. -/
def substituteArgs (template : String) (argsList : List (String × String)) : String :=
  argsList.foldl (fun acc kv => stringReplaceFirst acc (placeholderPattern kv.1) kv.2) template

/-- Whether `pat` occurs as a contiguous sublist. -/
def listContainsPat (pat : List Char) : List Char → Bool
  | [] => pat.isPrefixOf ([] : List Char)
  | c :: cs => pat.isPrefixOf (c :: cs) || listContainsPat pat cs

/-- Whether `pat` occurs at position `i`. -/
def occursAtPos (pat s : List Char) (i : Nat) : Bool :=
  pat.isPrefixOf (s.drop i)

/-! The JSON-RPC router (`enhanced-http-handler.ts`). -/

/-- The untyped `request.params`, projected to the fields the route
branches read.  The source's single `arguments` property serves both as the
tool-arguments map (`tools/call`) and as the placeholder map
(`prompts/get`); the two readings are split into `arguments` and
`promptArguments` here. -/
structure RequestParams where
  protocolVersion : String := ""
  capabilities : Option ClientCapabilities := none
  clientInfo : ClientInfo := {}
  name : String := ""
  arguments : Option ToolArgs := none
  promptArguments : Option (List (String × String)) := none
  uri : String := ""

/-- The `JsonRpcRequest` envelope. -/
structure JsonRpcRequest where
  jsonrpc : String
  id : JsonId
  method : String
  params : RequestParams := {}

/-- A text content item of a tool-call or prompt result. -/
inductive ContentItem where
  | text (s : String)
deriving DecidableEq

/-- One prompt message (role and text). -/
structure PromptMessage where
  role : String
  text : String
deriving DecidableEq

/-- One `resources/read` contents entry. -/
structure ResourceContents where
  uri : String
  mimeType : String
  text : String
deriving DecidableEq

/-- The result payloads produced by `routeRequest`, by method.  `toolCall`
carries the content list and the optional `isError` flag (absent unless the
tool dispatch threw). -/
inductive RpcResult where
  | emptyResult
  | initializeResult (protocolVersion : String) (capabilities : ServerCapabilities)
      (serverName serverVersion : String)
  | toolsList (toolNames : List String)
  | toolCallResult (content : List ContentItem) (isErr : Option Bool)
  | resourcesList (uris : List String)
  | resourceTemplatesList (uriTemplates : List String)
  | resourceReadResult (contents : List ResourceContents)
  | promptsList (names : List String)
  | promptGetResult (messages : List PromptMessage)
deriving DecidableEq

/-- Route outcome: a result, or a thrown `{code, message}` error object. -/
inductive RouteOutcome where
  | ok (result : RpcResult)
  | err (code : Int) (message : String)
deriving DecidableEq

/-- Ghost trace of the operations a route executed: which tools were
invoked and which catalog keys were looked up.  An empty trace certifies
that no underlying operation ran. -/
inductive TraceEvent where
  | toolInvoked (name : String)
  | catalogLookup (key : String)
deriving DecidableEq

/-- The `EnhancedHttpHandler` state: its fixed per-process session id
(`'http-default'`) and the session manager of its `EnhancedMCPServer`. -/
structure HttpHandlerState where
  sessionId : String := "http-default"
  sessionManager : SessionManager
deriving DecidableEq

/-- The JSON body of `config://sample` (`JSON.stringify(..., null, 2)` with
the server's iso timestamp). -/
def configSampleText (env : Env) : String :=
  "\x7b\n  \"name\": \"Enhanced MCP Server\",\n  \"version\": \"1.0.0\",\n  \"features\": [\n    \"tools\",\n    \"resources\",\n    \"prompts\",\n    \"sse\",\n    \"capability-negotiation\"\n  ],\n  \"protocolVersion\": \"2025-06-18\",\n  \"timestamp\": \"" ++ env.isoOf env.now ++ "\"\n\x7d"

/-- The `text://welcome` body. -/
def welcomeText : String :=
  "Welcome to the Enhanced MCP Server!\n\nThis server features:\n- Full SSE transport with bidirectional communication\n- Dynamic capability negotiation\n- Session management\n- Complete 2025 MCP specification compliance\n\nAvailable tools: "
    ++ String.intercalate ", " getToolDefinitionNames

/-- The static prompt catalog of `prompts/get`. -/
def promptTemplates : List (String × String) :=
  [("calculate", "Please calculate: \x7b\x7bexpression\x7d\x7d"),
   ("query",
    "Question: \x7b\x7bquestion\x7d\x7d\n\nContext: \x7b\x7bcontext\x7d\x7d\n\nPlease provide a detailed answer.")]

/-- The uri templates of `resources/templates/list`. -/
def resourceTemplateUris : List String :=
  ["user://profile/\x7buserId\x7d", "file:///\x7bpath\x7d",
   "api:///\x7bendpoint\x7d/\x7bid\x7d", "db:///\x7btable\x7d/\x7bquery\x7d",
   "log:///\x7bservice\x7d/\x7bdate\x7d"]

/-- `EnhancedHttpHandler.routeRequest`: the method switch.  Every
`tools/* | resources/* | prompts/*` branch checks `hasCapability` first and
throws the -32601 capability error before touching anything; `initialize`
creates/replaces the session; unknown methods throw -32601.  The third
component traces the executed operations. -/
def routeRequest (st : HttpHandlerState) (env : Env) (request : JsonRpcRequest) :
    RouteOutcome × HttpHandlerState × List TraceEvent :=
  if request.method = "ping" then (RouteOutcome.ok RpcResult.emptyResult, st, [])
  else if request.method = "initialize" then
    let clientCapabilities := request.params.capabilities.getD {}
    let r := st.sessionManager.createSession st.sessionId request.params.clientInfo
      request.params.protocolVersion clientCapabilities env.now
    let negotiatedCapabilities := r.2.getSessionCapabilities st.sessionId
    (RouteOutcome.ok
        (RpcResult.initializeResult "2025-06-18" negotiatedCapabilities
          "Enhanced MCP Server" "1.0.0"),
      { st with sessionManager := r.2 }, [])
  else if request.method = "tools/list" then
    if (st.sessionManager.hasCapability st.sessionId CapKey.tools).1 = false then
      (RouteOutcome.err (-32601) "Tools capability not negotiated for this session", st, [])
    else (RouteOutcome.ok (RpcResult.toolsList getToolDefinitionNames), st, [])
  else if request.method = "tools/call" then
    if (st.sessionManager.hasCapability st.sessionId CapKey.tools).1 = false then
      (RouteOutcome.err (-32601) "Tools capability not negotiated for this session", st, [])
    else
      match toolDispatch env request.params.name (request.params.arguments.getD {}) with
      | some result =>
          (RouteOutcome.ok
              (RpcResult.toolCallResult
                [ContentItem.text
                  (if result.success then result.content.getD "" else result.error.getD "")]
                none),
            st, [TraceEvent.toolInvoked request.params.name])
      | none =>
          (RouteOutcome.ok
              (RpcResult.toolCallResult
                [ContentItem.text
                  ("Error executing tool " ++ request.params.name
                    ++ ": Error: Unknown tool: " ++ request.params.name)]
                (some true)),
            st, [])
  else if request.method = "resources/list" then
    if (st.sessionManager.hasCapability st.sessionId CapKey.resources).1 = false then
      (RouteOutcome.err (-32601) "Resources capability not negotiated for this session", st, [])
    else
      (RouteOutcome.ok (RpcResult.resourcesList ["config://sample", "text://welcome"]), st, [])
  else if request.method = "resources/templates/list" then
    if (st.sessionManager.hasCapability st.sessionId CapKey.resources).1 = false then
      (RouteOutcome.err (-32601) "Resources capability not negotiated for this session", st, [])
    else
      (RouteOutcome.ok (RpcResult.resourceTemplatesList resourceTemplateUris), st, [])
  else if request.method = "resources/read" then
    if (st.sessionManager.hasCapability st.sessionId CapKey.resources).1 = false then
      (RouteOutcome.err (-32601) "Resources capability not negotiated for this session", st, [])
    else if request.params.uri = "config://sample" then
      (RouteOutcome.ok
          (RpcResult.resourceReadResult
            [{ uri := "config://sample", mimeType := "application/json"
               text := configSampleText env }]),
        st, [TraceEvent.catalogLookup request.params.uri])
    else if request.params.uri = "text://welcome" then
      (RouteOutcome.ok
          (RpcResult.resourceReadResult
            [{ uri := "text://welcome", mimeType := "text/plain", text := welcomeText }]),
        st, [TraceEvent.catalogLookup request.params.uri])
    else
      (RouteOutcome.err (-32602) ("Resource not found: " ++ request.params.uri),
        st, [TraceEvent.catalogLookup request.params.uri])
  else if request.method = "prompts/list" then
    if (st.sessionManager.hasCapability st.sessionId CapKey.prompts).1 = false then
      (RouteOutcome.err (-32601) "Prompts capability not negotiated for this session", st, [])
    else (RouteOutcome.ok (RpcResult.promptsList ["calculate", "query"]), st, [])
  else if request.method = "prompts/get" then
    if (st.sessionManager.hasCapability st.sessionId CapKey.prompts).1 = false then
      (RouteOutcome.err (-32601) "Prompts capability not negotiated for this session", st, [])
    else
      match mapGet promptTemplates request.params.name with
      | none =>
          (RouteOutcome.err (-32602) ("Prompt not found: " ++ request.params.name),
            st, [TraceEvent.catalogLookup request.params.name])
      | some template =>
          let processedTemplate :=
            match request.params.promptArguments with
            | none => template
            | some argsList => substituteArgs template argsList
          (RouteOutcome.ok
              (RpcResult.promptGetResult [{ role := "user", text := processedTemplate }]),
            st, [TraceEvent.catalogLookup request.params.name])
  else
    (RouteOutcome.err (-32601) ("Method not found: " ++ request.method), st, [])

/-- String prefix test, computed on the character lists. -/
def strStartsWith (s p : String) : Bool :=
  p.data.isPrefixOf s.data

/-- The spec's prefix-to-capability resolution for capability-gated
methods. -/
def methodRequiredCapability (method : String) : Option CapKey :=
  if strStartsWith method "tools/" then some CapKey.tools
  else if strStartsWith method "resources/" then some CapKey.resources
  else if strStartsWith method "prompts/" then some CapKey.prompts
  else none

/-- The JSON-RPC response envelope written by `sendResult` / `sendError`
(the optional `data` member is never populated by this handler). -/
structure JsonRpcResponse where
  id : JsonId
  result : Option RpcResult := none
  error : Option (Int × String) := none
  status : Nat
deriving DecidableEq

/-- `EnhancedHttpHandler.handleRequest`: validate the envelope shape,
route, and wrap the outcome — results via `sendResult` (HTTP 200), thrown
`{code, message}` objects via `sendError` (HTTP 404 for -32601, 400
otherwise), always echoing the request identifier. -/
def handleRequest (st : HttpHandlerState) (env : Env) (request : JsonRpcRequest) :
    JsonRpcResponse × HttpHandlerState × List TraceEvent :=
  if request.jsonrpc ≠ "2.0" then
    ({ id := request.id, error := some (-32600, "Invalid JSON-RPC version"), status := 400 },
      st, [])
  else if request.method = "" then
    ({ id := request.id, error := some (-32600, "Method is required"), status := 400 }, st, [])
  else
    match routeRequest st env request with
    | (RouteOutcome.ok r, st', tr) =>
        ({ id := request.id, result := some r, status := 200 }, st', tr)
    | (RouteOutcome.err c msg, st', tr) =>
        ({ id := request.id, error := some (c, msg)
           status := if c = -32601 then 404 else 400 }, st', tr)

/-- Projection of the `isError` flag out of a `tools/call` result. -/
def toolCallErrFlag : Option RpcResult → Option Bool
  | some (RpcResult.toolCallResult _ e) => e
  | _ => none

/-! Concrete states used by the witnesses. -/

/-- Handler state as constructed at process start: default server
capabilities and an empty store. -/
def freshHandlerState : HttpHandlerState :=
  { sessionManager := { serverCapabilities := defaultServerCapabilities, sessions := [] } }

/-- An environment with all effects at their defaults. -/
def envZero : Env := {}

/-- An `initialize` request advertising only `tools:{}`. -/
def toolsOnlyInitRequest : JsonRpcRequest :=
  { jsonrpc := "2.0", id := JsonId.num 1, method := "initialize"
    params := { protocolVersion := "2025-06-18"
                capabilities := some { tools := true }
                clientInfo := { name := "test", version := "1.0" } } }

/-- The handler state after the tools-only `initialize`. -/
def stateAfterToolsInit : HttpHandlerState :=
  (routeRequest freshHandlerState envZero toolsOnlyInitRequest).2.1

/-- A subsequent `resources/list` request on the same session. -/
def resourcesListRequest : JsonRpcRequest :=
  { jsonrpc := "2.0", id := JsonId.num 2, method := "resources/list" }

/-- A `tools/call` of `random_number` with `min = 10 > max = 5` and
identifier 42. -/
def failingRandomCallRequest : JsonRpcRequest :=
  { jsonrpc := "2.0", id := JsonId.num 42, method := "tools/call"
    params := { name := "random_number"
                arguments := some { min := some 10, max := some 5 } } }

/-- Concrete server capabilities with an experimental record, used by the
negotiation witnesses. -/
def expServerCaps : ServerCapabilities :=
  { tools := true, resources := true, prompts := true, logging := true
    experimental := some [("featA", true)] }

/-- Concrete client capabilities advertising tools, sampling and the
experimental key `featA`. -/
def expClientCaps : ClientCapabilities :=
  { tools := true, sampling := true, experimental := some [("featA", true)] }

/-- Session manager holding `expServerCaps` with an empty session store. -/
def expManager : SessionManager :=
  { serverCapabilities := expServerCaps, sessions := [] }

/-- Concrete stored session used by the frame-effect witness. -/
def sampleSession : ManagedSession :=
  { id := "s1", clientInfo := {}, protocolVersion := "2025-06-18"
    clientCapabilities := {}
    negotiatedCapabilities :=
      { tools := true, resources := false, prompts := false, logging := false
        sampling := false }
    metadata := [], createdAt := 0, lastActivity := 0 }

/-- Session manager holding `sampleSession` under id `s1`. -/
def sampleManager : SessionManager :=
  { serverCapabilities := defaultServerCapabilities
    sessions := [("s1", sampleSession)] }

/-- A session last active at time 0, stale at the witness sweep time. -/
def staleSessionOld : ManagedSession := { sampleSession with id := "old", lastActivity := 0 }

/-- A session last active at the witness sweep time itself. -/
def freshSessionNew : ManagedSession :=
  { sampleSession with id := "new", lastActivity := 400000 }

/-- Store holding one stale and one fresh session, for the sweep witness. -/
def sweepManager : SessionManager :=
  { serverCapabilities := defaultServerCapabilities
    sessions := [("old", staleSessionOld), ("new", freshSessionNew)] }

/-- A healthy SSE session used by the removal and sweep witnesses. -/
def sseSessionA : SSESession :=
  { id := "sse1", transport := {}, createdAt := 0, lastActivity := 0 }

/-- SSE manager holding `sseSessionA` under id `sse1`. -/
def sseManagerA : SSETransportManager := ⟨[("sse1", sseSessionA)]⟩

/-- An SSE session whose inbound handler throws, for the error-surfacing
witness. -/
def failingSSESession : SSESession :=
  { id := "sse2", transport := { handlePostFails := true }, createdAt := 0, lastActivity := 0 }

/-- SSE manager holding `failingSSESession` under id `sse2`. -/
def sseManagerB : SSETransportManager := ⟨[("sse2", failingSSESession)]⟩

/-- SSE manager with no sessions. -/
def emptySSEManager : SSETransportManager := ⟨[]⟩

/-- A stale SSE session for the sweep witness. -/
def staleSSE : SSESession := { id := "old", transport := {}, createdAt := 0, lastActivity := 0 }

/-- A fresh SSE session for the sweep witness. -/
def freshSSE : SSESession :=
  { id := "new", transport := {}, createdAt := 0, lastActivity := 400000 }

/-- SSE manager holding one stale and one fresh session. -/
def sweepSSEManager : SSETransportManager := ⟨[("old", staleSSE), ("new", freshSSE)]⟩

/-! Association-list lemmas. -/

theorem mapGet_nil {α : Type} (k : String) : mapGet ([] : List (String × α)) k = none := rfl

theorem mapGet_cons {α : Type} (a : String × α) (l : List (String × α)) (k : String) :
    mapGet (a :: l) k = if a.1 == k then some a.2 else mapGet l k := by
  by_cases h : a.1 == k
  · simp [mapGet, List.find?_cons_of_pos, h]
  · simp only [Bool.not_eq_true] at h
    simp [mapGet, List.find?_cons_of_neg, h]

theorem mapGet_mapSet_self {α : Type} (l : List (String × α)) (k : String) (v : α) :
    mapGet (mapSet l k v) k = some v := by
  induction l with
  | nil => simp [mapSet, mapGet_cons]
  | cons a t ih =>
      obtain ⟨a1, a2⟩ := a
      by_cases h : a1 == k
      · simp [mapSet, h, mapGet_cons]
      · simp [mapSet, h, mapGet_cons, ih]

theorem mapGet_eq_none_of_not_mem {α : Type} (l : List (String × α)) (k : String)
    (h : k ∉ l.map Prod.fst) : mapGet l k = none := by
  induction l with
  | nil => rfl
  | cons a t ih =>
      simp only [List.map_cons, List.mem_cons] at h
      push_neg at h
      rw [mapGet_cons]
      have : (a.1 == k) = false := by
        simp [beq_iff_eq]
        exact fun he => h.1 he.symm
      simp [this, ih h.2]

theorem mapGet_mapDelete_self {α : Type} (l : List (String × α)) (k : String)
    (h : (l.map Prod.fst).Nodup) : mapGet (mapDelete l k) k = none := by
  induction l with
  | nil => rfl
  | cons a t ih =>
      simp only [List.map_cons, List.nodup_cons] at h
      by_cases hk : a.1 == k
      · have hk' : a.1 = k := by simpa [beq_iff_eq] using hk
        simp only [mapDelete, List.eraseP_cons, hk, cond_true]
        apply mapGet_eq_none_of_not_mem
        rw [← hk']
        exact h.1
      · simp only [mapDelete, List.eraseP_cons, hk, cond_false]
        rw [mapGet_cons]
        simp only [hk, if_false]
        exact ih h.2

theorem mapDelete_of_mapGet_none {α : Type} (l : List (String × α)) (k : String)
    (h : mapGet l k = none) : mapDelete l k = l := by
  apply List.eraseP_of_forall_not
  intro p hp
  simp only [mapGet, Option.map_eq_none'] at h
  have := List.find?_eq_none.mp h p hp
  simpa using this

theorem mapGet_mem_values {α : Type} (l : List (String × α)) (k : String) (v : α)
    (h : mapGet l k = some v) : v ∈ l.map Prod.snd := by
  simp only [mapGet, Option.map_eq_some'] at h
  obtain ⟨p, hp, hv⟩ := h
  have := List.mem_of_find?_eq_some hp
  exact hv ▸ List.mem_map_of_mem Prod.snd this

theorem mapGet_filter_some {α : Type} (keep : String × α → Bool) (l : List (String × α))
    (k : String) (v : α) (h : mapGet l k = some v) (hk : keep (k, v) = true) :
    mapGet (l.filter keep) k = some v := by
  induction l with
  | nil => simp [mapGet] at h
  | cons a t ih =>
      rw [mapGet_cons] at h
      by_cases ha : a.1 == k
      · have ha' : a.1 = k := by simpa [beq_iff_eq] using ha
        simp only [ha, if_true] at h
        have hav : a = (k, v) := by
          obtain ⟨a1, a2⟩ := a
          simp only at ha'
          simp only at h
          rw [ha', Option.some_inj.mp h]
        rw [List.filter_cons, hav]
        simp only [hk, if_true]
        rw [mapGet_cons]
        simp
      · simp only [ha, if_false] at h
        rw [List.filter_cons]
        by_cases hkeep : keep a
        · simp only [hkeep, if_true]
          rw [mapGet_cons]
          simp only [ha, if_false]
          exact ih h
        · simp only [Bool.not_eq_true] at hkeep
          simp only [hkeep, Bool.false_eq_true, if_false]
          exact ih h

theorem mapGet_filter_none_of_none {α : Type} (keep : String × α → Bool)
    (l : List (String × α)) (k : String) (h : mapGet l k = none) :
    mapGet (l.filter keep) k = none := by
  induction l with
  | nil => rfl
  | cons a t ih =>
      rw [mapGet_cons] at h
      by_cases ha : a.1 == k
      · simp [ha] at h
      · simp only [ha, if_false] at h
        rw [List.filter_cons]
        by_cases hkeep : keep a
        · simp only [hkeep, if_true]
          rw [mapGet_cons]
          simp [ha, ih h]
        · simp only [Bool.not_eq_true] at hkeep
          simp [hkeep, ih h]

theorem mapGet_filter_none {α : Type} (keep : String × α → Bool) (l : List (String × α))
    (k : String) (v : α) (hnd : (l.map Prod.fst).Nodup) (h : mapGet l k = some v)
    (hk : keep (k, v) = false) : mapGet (l.filter keep) k = none := by
  induction l with
  | nil => simp [mapGet] at h
  | cons a t ih =>
      simp only [List.map_cons, List.nodup_cons] at hnd
      rw [mapGet_cons] at h
      by_cases ha : a.1 == k
      · have ha' : a.1 = k := by simpa [beq_iff_eq] using ha
        simp only [ha, if_true] at h
        have hav : a = (k, v) := by
          obtain ⟨a1, a2⟩ := a
          simp only at ha'
          simp only at h
          rw [ha', Option.some_inj.mp h]
        rw [List.filter_cons, hav]
        simp only [hk, Bool.false_eq_true, if_false]
        apply mapGet_filter_none_of_none
        apply mapGet_eq_none_of_not_mem
        rw [← ha']
        exact hnd.1
      · simp only [ha, if_false] at h
        rw [List.filter_cons]
        by_cases hkeep : keep a
        · simp only [hkeep, if_true]
          rw [mapGet_cons]
          simp only [ha, if_false]
          exact ih hnd.2 h
        · simp only [Bool.not_eq_true] at hkeep
          simp only [hkeep, Bool.false_eq_true, if_false]
          exact ih hnd.2 h

theorem expListLookup_cons (a : String × Bool) (l : List (String × Bool)) (k : String) :
    expListLookup (a :: l) k = if a.1 == k then a.2 else expListLookup l k := by
  by_cases h : a.1 == k
  · simp [expListLookup, List.find?_cons_of_pos, h]
  · simp only [Bool.not_eq_true] at h
    simp [expListLookup, List.find?_cons_of_neg, h]

theorem expListLookup_negotiate (se : List (String × Bool)) (k : String) :
    ∀ ce : List (String × Bool),
      expListLookup (negotiateExperimentalList se ce) k = true →
        ce.any (fun p => p.1 == k && p.2) = true ∧ expListLookup se k = true := by
  intro ce
  induction ce with
  | nil => intro h; simp [negotiateExperimentalList, expListLookup] at h
  | cons p ct ih =>
      intro h
      unfold negotiateExperimentalList at h
      rw [List.filter_cons] at h
      by_cases hp : (p.2 && expListLookup se p.1) = true
      · rw [Bool.and_eq_true] at hp
        simp only [hp.1, hp.2, Bool.and_self, if_true, List.map_cons] at h
        rw [expListLookup_cons] at h
        by_cases hk : p.1 == k
        · have hk' : p.1 = k := by simpa [beq_iff_eq] using hk
          refine ⟨?_, ?_⟩
          · simp [List.any_cons, hk, hp.1]
          · rw [← hk']; exact hp.2
        · simp only [hk, Bool.false_eq_true, if_false] at h
          rcases ih h with ⟨h1, h2⟩
          exact ⟨by simp [List.any_cons, h1], h2⟩
      · simp only [Bool.not_eq_true] at hp
        simp only [hp, Bool.false_eq_true, if_false] at h
        rcases ih h with ⟨h1, h2⟩
        exact ⟨by simp [List.any_cons, h1], h2⟩

/-- C1: the capability negotiation function conforms to the per-key rule
table.  For every key other than `sampling` and `experimental`, a negotiated
`true` requires both the server's and the client's advertised sets to mark
the key; `sampling` is negotiated exactly as advertised by the client,
independent of the server; and each `experimental` sub-key is negotiated
true only if both sides advertise that key, evaluated independently per
key. -/
theorem negotiation_rule_table (m : SessionManager) (cc : ClientCapabilities) :
    (∀ k : CapKey, k ≠ CapKey.sampling → k ≠ CapKey.experimental →
        (m.negotiateCapabilities cc).truthy k = true →
          m.serverCapabilities.advertises k = true ∧ cc.advertises k = true)
    ∧ (m.negotiateCapabilities cc).sampling = cc.sampling
    ∧ (∀ name : String,
        expTruthy (m.negotiateCapabilities cc).experimental name = true →
          clientAdvertisesExperimentalKey cc name = true
          ∧ expTruthy m.serverCapabilities.experimental name = true) := by
  refine ⟨?_, rfl, ?_⟩
  · intro k h1 h2 h
    cases k with
    | tools =>
        simp only [SessionManager.negotiateCapabilities,
          NegotiatedCapabilities.truthy, Bool.and_eq_true] at h
        exact ⟨h.1, h.2⟩
    | resources =>
        simp only [SessionManager.negotiateCapabilities,
          NegotiatedCapabilities.truthy, Bool.and_eq_true] at h
        exact ⟨h.1, h.2⟩
    | prompts =>
        simp only [SessionManager.negotiateCapabilities,
          NegotiatedCapabilities.truthy, Bool.and_eq_true] at h
        exact ⟨h.1, h.2⟩
    | logging =>
        simp only [SessionManager.negotiateCapabilities,
          NegotiatedCapabilities.truthy, Bool.and_eq_true] at h
        exact ⟨h.1, h.2⟩
    | sampling => exact absurd rfl h1
    | experimental => exact absurd rfl h2
  · intro name h
    simp only [SessionManager.negotiateCapabilities] at h
    rcases hce : cc.experimental with _ | ce
    · rw [hce] at h; simp [expTruthy] at h
    · rcases hse : m.serverCapabilities.experimental with _ | se
      · rw [hce, hse] at h; simp [expTruthy] at h
      · rw [hce, hse] at h
        simp only [expTruthy] at h
        rcases expListLookup_negotiate se name ce h with ⟨h1, h2⟩
        constructor
        · simp [clientAdvertisesExperimentalKey, hce, h1]
        · simp [expTruthy, hse, h2]

/-- Witness for the negotiation rule-table theorem at concrete inputs. -/
theorem negotiation_rule_table_witness :
    (expManager.serverCapabilities.advertises CapKey.tools = true
      ∧ expClientCaps.advertises CapKey.tools = true)
    ∧ (expManager.negotiateCapabilities expClientCaps).sampling = expClientCaps.sampling
    ∧ (clientAdvertisesExperimentalKey expClientCaps "featA" = true
        ∧ expTruthy expManager.serverCapabilities.experimental "featA" = true) :=
  ⟨(negotiation_rule_table expManager expClientCaps).1 CapKey.tools
      (by decide) (by decide) (by decide),
   (negotiation_rule_table expManager expClientCaps).2.1,
   (negotiation_rule_table expManager expClientCaps).2.2 "featA" (by decide)⟩

/-- C2: immediately after `createSession`, `hasCapability` returns exactly
the value of the spec's negotiation rule table for each of the five named
capability keys; and for an id with no stored session, `hasCapability`
returns `false` for every key. -/
theorem hasCapability_matches_table (m : SessionManager) (id : String)
    (ci : ClientInfo) (pv : String) (cc : ClientCapabilities) (now : Nat)
    (k : CapKey) (hk : k ≠ CapKey.experimental) :
    ((m.createSession id ci pv cc now).2.hasCapability id k).1
      = specCapabilityRule m.serverCapabilities cc k
    ∧ ∀ (m' : SessionManager) (id' : String) (k' : CapKey),
        mapGet m'.sessions id' = none → (m'.hasCapability id' k').1 = false := by
  constructor
  · unfold SessionManager.createSession SessionManager.hasCapability
    simp only
    rw [mapGet_mapSet_self]
    cases k with
    | tools => rfl
    | resources => rfl
    | prompts => rfl
    | logging => rfl
    | sampling => rfl
    | experimental => exact absurd rfl hk
  · intro m' id' k' h
    unfold SessionManager.hasCapability
    rw [h]

/-- Witness for the `hasCapability`-matches-table theorem: a created session
answers `tools` per the table, and a missing id answers `false`. -/
theorem hasCapability_matches_table_witness :
    ((expManager.createSession "s1" {} "2025-06-18" expClientCaps 0).2.hasCapability
        "s1" CapKey.tools).1
      = specCapabilityRule expManager.serverCapabilities expClientCaps CapKey.tools
    ∧ (expManager.hasCapability "missing" CapKey.tools).1 = false :=
  ⟨(hasCapability_matches_table expManager "s1" {} "2025-06-18" expClientCaps 0
      CapKey.tools (by decide)).1,
   (hasCapability_matches_table expManager "s1" {} "2025-06-18" expClientCaps 0
      CapKey.tools (by decide)).2 expManager "missing" CapKey.tools (by decide)⟩

/-- C5: `createSession` is total (it never fails) and an id collision
silently replaces the prior record: after two back-to-back calls with the
same id, the stored record is exactly the one computed from the second
call's client capabilities — negotiated set fully replaced, empty metadata,
both timestamps stamped to the second call's time. -/
theorem createSession_overwrites (m : SessionManager) (id : String)
    (ci1 ci2 : ClientInfo) (pv1 pv2 : String) (cc1 cc2 : ClientCapabilities)
    (t1 t2 : Nat) :
    mapGet ((m.createSession id ci1 pv1 cc1 t1).2.createSession id ci2 pv2 cc2 t2).2.sessions id
      = some { id := id, clientInfo := ci2, protocolVersion := pv2
               clientCapabilities := cc2
               negotiatedCapabilities := m.negotiateCapabilities cc2
               metadata := [], createdAt := t2, lastActivity := t2 } := by
  unfold SessionManager.createSession
  simp only
  rw [mapGet_mapSet_self]
  rfl

/-- C10: `hasCapability` is a pure read — its resulting store state is the
input state, so a capability check never touches `lastActivity` — whereas
`getSession` on a hit rewrites the stored record with `lastActivity`
stamped to now. -/
theorem hasCapability_pure_read (m : SessionManager) (id : String) (cap : CapKey)
    (now : Nat) :
    (m.hasCapability id cap).2 = m
    ∧ (∀ s : ManagedSession, mapGet m.sessions id = some s →
        (m.getSession id now).2.sessions
            = mapSet m.sessions id { s with lastActivity := now }
        ∧ (m.getSession id now).1 = some { s with lastActivity := now }) := by
  constructor
  · unfold SessionManager.hasCapability
    cases h : mapGet m.sessions id <;> rfl
  · intro s hs
    unfold SessionManager.getSession
    rw [hs]
    exact ⟨rfl, rfl⟩

/-- Witness for the pure-read theorem at a concrete store. -/
theorem hasCapability_pure_read_witness :
    (sampleManager.hasCapability "s1" CapKey.tools).2 = sampleManager
    ∧ ((sampleManager.getSession "s1" 99).2.sessions
        = mapSet sampleManager.sessions "s1" { sampleSession with lastActivity := 99 }
       ∧ (sampleManager.getSession "s1" 99).1
        = some { sampleSession with lastActivity := 99 }) :=
  ⟨(hasCapability_pure_read sampleManager "s1" CapKey.tools 99).1,
   (hasCapability_pure_read sampleManager "s1" CapKey.tools 99).2 sampleSession (by decide)⟩

/-! Lemmas for the idle sweep. -/

theorem mapGet_append_key {α : Type} (pre l : List (String × α)) (p : String × α)
    (h : p.1 ∉ pre.map Prod.fst) : mapGet (pre ++ p :: l) p.1 = some p.2 := by
  induction pre with
  | nil => rw [List.nil_append, mapGet_cons]; simp
  | cons a t ih =>
      simp only [List.map_cons, List.mem_cons] at h
      push_neg at h
      rw [List.cons_append, mapGet_cons]
      have ha : (a.1 == p.1) = false := by
        simp only [beq_eq_false_iff_ne, ne_eq]
        exact fun he => h.1 he.symm
      simp [ha, ih h.2]

theorem eraseP_append_key {α : Type} (pre l : List (String × α)) (p : String × α)
    (h : p.1 ∉ pre.map Prod.fst) :
    (pre ++ p :: l).eraseP (fun q => q.1 == p.1) = pre ++ l := by
  induction pre with
  | nil =>
      rw [List.nil_append]
      exact List.eraseP_cons_of_pos (by simp)
  | cons a t ih =>
      simp only [List.map_cons, List.mem_cons] at h
      push_neg at h
      rw [List.cons_append, List.cons_append]
      rw [List.eraseP_cons_of_neg (by simp [beq_iff_eq]; exact fun he => h.1 he.symm)]
      rw [ih h.2]

theorem cleanup_aux (maxMs now : Nat) :
    ∀ (l pre : List (String × ManagedSession)) (m : SessionManager),
      m.sessions = pre ++ l → ((pre ++ l).map Prod.fst).Nodup →
      (l.foldl
          (fun acc p =>
            if now - p.2.lastActivity > maxMs then acc.removeSession p.1 else acc)
          m).sessions
        = pre ++ l.filter (fun p => !decide (now - p.2.lastActivity > maxMs)) := by
  intro l
  induction l with
  | nil =>
      intro pre m hm _
      simpa using hm
  | cons p t ih =>
      intro pre m hm hnd
      rw [List.map_append, List.map_cons, List.nodup_append] at hnd
      obtain ⟨hpre, hcons, hdisj⟩ := hnd
      have hkey : p.1 ∉ pre.map Prod.fst := fun hin => hdisj hin (List.mem_cons_self _ _)
      rw [List.foldl_cons]
      by_cases hp : now - p.2.lastActivity > maxMs
      · rw [if_pos hp]
        have hm' : (m.removeSession p.1).sessions = pre ++ t := by
          show mapDelete m.sessions p.1 = pre ++ t
          rw [hm]
          exact eraseP_append_key pre t p hkey
        have h2 : ((pre ++ t).map Prod.fst).Nodup := by
          rw [List.map_append, List.nodup_append]
          exact ⟨hpre, (List.nodup_cons.mp hcons).2,
            fun a ha hb => hdisj ha (List.mem_cons_of_mem _ hb)⟩
        rw [ih pre (m.removeSession p.1) hm' h2, List.filter_cons]
        simp [hp]
      · rw [if_neg hp]
        have hm2 : m.sessions = (pre ++ [p]) ++ t := by rw [hm]; simp
        have h2 : (((pre ++ [p]) ++ t).map Prod.fst).Nodup := by
          rw [List.append_assoc, List.singleton_append, List.map_append, List.map_cons,
            List.nodup_append]
          exact ⟨hpre, hcons, hdisj⟩
        rw [ih (pre ++ [p]) m hm2 h2, List.filter_cons]
        simp [hp]

theorem cleanupStaleSessions_eq_filter (m : SessionManager) (maxMs now : Nat)
    (hnd : (m.sessions.map Prod.fst).Nodup) :
    (m.cleanupStaleSessions maxMs now).sessions
      = m.sessions.filter (fun p => !decide (now - p.2.lastActivity > maxMs)) := by
  have h := cleanup_aux maxMs now m.sessions [] m (by simp) (by simpa using hnd)
  simpa [SessionManager.cleanupStaleSessions] using h

theorem sse_removeSession_sessions (m : SSETransportManager) (id : String) :
    ((m.removeSession id).1).sessions = mapDelete m.sessions id := by
  unfold SSETransportManager.removeSession
  cases h : mapGet m.sessions id
  · rw [mapDelete_of_mapGet_none m.sessions id h]
  · rfl

theorem sse_cleanup_aux (now : Nat) :
    ∀ (l pre : List (String × SSESession)) (m : SSETransportManager),
      m.sessions = pre ++ l → ((pre ++ l).map Prod.fst).Nodup →
      (l.foldl
          (fun acc p =>
            if now - p.2.lastActivity > sseStaleTimeout then (acc.removeSession p.1).1 else acc)
          m).sessions
        = pre ++ l.filter (fun p => !decide (now - p.2.lastActivity > sseStaleTimeout)) := by
  intro l
  induction l with
  | nil =>
      intro pre m hm _
      simpa using hm
  | cons p t ih =>
      intro pre m hm hnd
      rw [List.map_append, List.map_cons, List.nodup_append] at hnd
      obtain ⟨hpre, hcons, hdisj⟩ := hnd
      have hkey : p.1 ∉ pre.map Prod.fst := fun hin => hdisj hin (List.mem_cons_self _ _)
      rw [List.foldl_cons]
      by_cases hp : now - p.2.lastActivity > sseStaleTimeout
      · rw [if_pos hp]
        have hm' : ((m.removeSession p.1).1).sessions = pre ++ t := by
          rw [sse_removeSession_sessions, mapDelete, hm]
          exact eraseP_append_key pre t p hkey
        have h2 : ((pre ++ t).map Prod.fst).Nodup := by
          rw [List.map_append, List.nodup_append]
          exact ⟨hpre, (List.nodup_cons.mp hcons).2,
            fun a ha hb => hdisj ha (List.mem_cons_of_mem _ hb)⟩
        rw [ih pre (m.removeSession p.1).1 hm' h2, List.filter_cons]
        simp [hp]
      · rw [if_neg hp]
        have hm2 : m.sessions = (pre ++ [p]) ++ t := by rw [hm]; simp
        have h2 : (((pre ++ [p]) ++ t).map Prod.fst).Nodup := by
          rw [List.append_assoc, List.singleton_append, List.map_append, List.map_cons,
            List.nodup_append]
          exact ⟨hpre, hcons, hdisj⟩
        rw [ih (pre ++ [p]) m hm2 h2, List.filter_cons]
        simp [hp]

theorem cleanupTick_eq_filter (m : SSETransportManager) (now : Nat)
    (hnd : (m.sessions.map Prod.fst).Nodup) :
    (m.cleanupTick now).sessions
      = m.sessions.filter (fun p => !decide (now - p.2.lastActivity > sseStaleTimeout)) := by
  have h := sse_cleanup_aux now m.sessions [] m (by simp) (by simpa using hnd)
  simpa [SSETransportManager.cleanupTick] using h

/-- C6: a sweep tick evicts exactly the timed-out sessions.  For the session
store's `cleanupStaleSessions` (arbitrary configured threshold) and for the
SSE manager's cleanup tick (its 5-minute constant): every session whose
inactivity strictly exceeds the threshold is absent from the store and the
active-session list afterwards, and every session within the window is still
present, untouched. -/
theorem idle_sweep_exact :
    (∀ (m : SessionManager) (maxMs now : Nat) (id : String) (s : ManagedSession),
      (m.sessions.map Prod.fst).Nodup → mapGet m.sessions id = some s →
        ((now - s.lastActivity > maxMs →
            mapGet (m.cleanupStaleSessions maxMs now).sessions id = none
            ∧ s ∉ (m.cleanupStaleSessions maxMs now).getActiveSessions)
         ∧ (now - s.lastActivity ≤ maxMs →
            mapGet (m.cleanupStaleSessions maxMs now).sessions id = some s
            ∧ s ∈ (m.cleanupStaleSessions maxMs now).getActiveSessions)))
    ∧ (∀ (sm : SSETransportManager) (now : Nat) (id : String) (t : SSESession),
      (sm.sessions.map Prod.fst).Nodup → mapGet sm.sessions id = some t →
        ((now - t.lastActivity > sseStaleTimeout →
            mapGet (sm.cleanupTick now).sessions id = none
            ∧ t ∉ (sm.cleanupTick now).getActiveSessions)
         ∧ (now - t.lastActivity ≤ sseStaleTimeout →
            mapGet (sm.cleanupTick now).sessions id = some t
            ∧ t ∈ (sm.cleanupTick now).getActiveSessions))) := by
  constructor
  · intro m maxMs now id s hnd hget
    have hsess := cleanupStaleSessions_eq_filter m maxMs now hnd
    constructor
    · intro hstale
      constructor
      · rw [hsess]
        exact mapGet_filter_none _ m.sessions id s hnd hget (by simp [hstale])
      · show s ∉ (m.cleanupStaleSessions maxMs now).sessions.map Prod.snd
        rw [hsess]
        intro hmem
        simp only [List.mem_map] at hmem
        obtain ⟨p, hp, hps⟩ := hmem
        have hpf := (List.mem_filter.mp hp).2
        rw [hps] at hpf
        simp [hstale] at hpf
    · intro hfresh
      have hkeep : (fun p : String × ManagedSession =>
          !decide (now - p.2.lastActivity > maxMs)) (id, s) = true := by
        simp
        omega
      constructor
      · rw [hsess]
        exact mapGet_filter_some _ m.sessions id s hget hkeep
      · show s ∈ (m.cleanupStaleSessions maxMs now).sessions.map Prod.snd
        rw [hsess]
        exact mapGet_mem_values _ id s (mapGet_filter_some _ m.sessions id s hget hkeep)
  · intro sm now id t hnd hget
    have hsess := cleanupTick_eq_filter sm now hnd
    constructor
    · intro hstale
      constructor
      · rw [hsess]
        exact mapGet_filter_none _ sm.sessions id t hnd hget (by simp [hstale])
      · show t ∉ (sm.cleanupTick now).sessions.map Prod.snd
        rw [hsess]
        intro hmem
        simp only [List.mem_map] at hmem
        obtain ⟨p, hp, hps⟩ := hmem
        have hpf := (List.mem_filter.mp hp).2
        rw [hps] at hpf
        simp [hstale] at hpf
    · intro hfresh
      have hkeep : (fun p : String × SSESession =>
          !decide (now - p.2.lastActivity > sseStaleTimeout)) (id, t) = true := by
        simp
        omega
      constructor
      · rw [hsess]
        exact mapGet_filter_some _ sm.sessions id t hget hkeep
      · show t ∈ (sm.cleanupTick now).sessions.map Prod.snd
        rw [hsess]
        exact mapGet_mem_values _ id t (mapGet_filter_some _ sm.sessions id t hget hkeep)

/-- Witness for the sweep theorem: at time 400000 with a 300000ms threshold,
the stale session is gone and the fresh one survives, on both managers. -/
theorem idle_sweep_exact_witness :
    (mapGet (sweepManager.cleanupStaleSessions 300000 400000).sessions "old" = none
      ∧ staleSessionOld ∉ (sweepManager.cleanupStaleSessions 300000 400000).getActiveSessions)
    ∧ (mapGet (sweepManager.cleanupStaleSessions 300000 400000).sessions "new"
          = some freshSessionNew
      ∧ freshSessionNew ∈ (sweepManager.cleanupStaleSessions 300000 400000).getActiveSessions)
    ∧ (mapGet (sweepSSEManager.cleanupTick 400000).sessions "old" = none
      ∧ staleSSE ∉ (sweepSSEManager.cleanupTick 400000).getActiveSessions)
    ∧ (mapGet (sweepSSEManager.cleanupTick 400000).sessions "new" = some freshSSE
      ∧ freshSSE ∈ (sweepSSEManager.cleanupTick 400000).getActiveSessions) := by
  have h1 := idle_sweep_exact.1 sweepManager 300000 400000 "old" staleSessionOld
    (by decide) (by decide)
  have h2 := idle_sweep_exact.1 sweepManager 300000 400000 "new" freshSessionNew
    (by decide) (by decide)
  have h3 := idle_sweep_exact.2 sweepSSEManager 400000 "old" staleSSE
    (by decide) (by decide)
  have h4 := idle_sweep_exact.2 sweepSSEManager 400000 "new" freshSSE
    (by decide) (by decide)
  exact ⟨h1.1 (by decide), h2.2 (by decide), h3.1 (by decide), h4.2 (by decide)⟩

/-! Lemmas for streaming-session removal. -/

theorem sse_removeSession_absent (m : SSETransportManager) (id : String)
    (h : mapGet m.sessions id = none) : m.removeSession id = (m, 0, none) := by
  unfold SSETransportManager.removeSession
  rw [h]

theorem sse_removeSession_present (m : SSETransportManager) (id : String) (s : SSESession)
    (h : mapGet m.sessions id = some s) :
    m.removeSession id
      = (⟨mapDelete m.sessions id⟩, 1,
          match s.transport.close with
          | Except.ok _ => none
          | Except.error _ => none) := by
  unfold SSETransportManager.removeSession
  rw [h]

theorem close_outcome_swallowed (t : SSETransport) :
    (match t.close with
      | Except.ok _ => none
      | Except.error _ => (none : Option String)) = none := by
  cases t.close <;> rfl

/-- C7: streaming-session removal is idempotent.  For a stored session,
the first `removeSession` performs exactly one `close()` of the bound
stream and surfaces no error (a rejected close is swallowed); a second call
performs no close, surfaces no error, and leaves the state unchanged; and
after any positive number of calls the session is absent from the store. -/
theorem removeSession_idempotent (m : SSETransportManager) (id : String) (s : SSESession)
    (hnd : (m.sessions.map Prod.fst).Nodup) (h : mapGet m.sessions id = some s) :
    (m.removeSession id).2.1 = 1
    ∧ (m.removeSession id).2.2 = none
    ∧ ((m.removeSession id).1.removeSession id).2.1 = 0
    ∧ ((m.removeSession id).1.removeSession id).2.2 = none
    ∧ ((m.removeSession id).1.removeSession id).1 = (m.removeSession id).1
    ∧ (∀ n : Nat, mapGet (removeSessionIter m id (n + 1)).sessions id = none) := by
  have hp := sse_removeSession_present m id s h
  have habs : mapGet (m.removeSession id).1.sessions id = none := by
    rw [hp]
    exact mapGet_mapDelete_self m.sessions id hnd
  have hsecond := sse_removeSession_absent (m.removeSession id).1 id habs
  refine ⟨by rw [hp], ?_, by rw [hsecond], by rw [hsecond], by rw [hsecond], ?_⟩
  · rw [hp]
    exact close_outcome_swallowed s.transport
  · intro n
    induction n with
    | zero => exact habs
    | succ k ihk =>
        show mapGet ((removeSessionIter m id (k + 1)).removeSession id).1.sessions id = none
        rw [sse_removeSession_absent _ _ ihk]
        exact ihk

/-- Witness for the removal-idempotence theorem on a concrete store. -/
theorem removeSession_idempotent_witness :
    (sseManagerA.removeSession "sse1").2.1 = 1
    ∧ (sseManagerA.removeSession "sse1").2.2 = none
    ∧ ((sseManagerA.removeSession "sse1").1.removeSession "sse1").2.1 = 0
    ∧ ((sseManagerA.removeSession "sse1").1.removeSession "sse1").2.2 = none
    ∧ ((sseManagerA.removeSession "sse1").1.removeSession "sse1").1
        = (sseManagerA.removeSession "sse1").1
    ∧ mapGet (removeSessionIter sseManagerA "sse1" 2).sessions "sse1" = none := by
  have h := removeSession_idempotent sseManagerA "sse1" sseSessionA (by decide) (by decide)
  exact ⟨h.1, h.2.1, h.2.2.1, h.2.2.2.1, h.2.2.2.2.1, h.2.2.2.2.2 1⟩

/-- C8 counterexample: a POST to the message-submission endpoint with a
missing session identifier is answered with InvalidRequest (-32600), not
with SessionNotFound (-32000) as claimed. -/
theorem missing_session_id_rejected_32600 :
    (postMessages emptySSEManager Option.none false Option.none 0).1
      = PostMessagesOutcome.rejected 400 (-32600) "Session ID is required" JsonId.null
    ∧ ((-32600 : Int) ≠ -32000) :=
  ⟨rfl, by decide⟩

/-- C8 (amended): a missing (falsy) session identifier is rejected by the
endpoint with a structured InvalidRequest error (-32600) without a session
lookup or state change; an unknown identifier yields the structured
SessionNotFound error (-32000) with no state change; for a known session,
`handleMessage` touches `lastActivity`, and a throwing inbound handler is
surfaced as a structured -32603 error (headers not yet sent) rather than
escaping uncaught — every path is total. -/
theorem message_submission_handling (m : SSETransportManager) (sessionId : Option String)
    (headersSent : Bool) (body : Option JsonId) (now : Nat) :
    (strFalsy sessionId = true →
      postMessages m sessionId headersSent body now
        = (PostMessagesOutcome.rejected 400 (-32600) "Session ID is required" JsonId.null, m))
    ∧ (∀ sid : String, mapGet m.sessions sid = none →
        m.handleMessage sid headersSent body now
          = (HandleMessageOutcome.sessionNotFound 404 (-32000) JsonId.null, m))
    ∧ (∀ (sid : String) (s : SSESession), mapGet m.sessions sid = some s →
        (m.handleMessage sid headersSent body now).2.sessions
            = mapSet m.sessions sid { s with lastActivity := now }
        ∧ (s.transport.handlePostFails = true → headersSent = false →
            (m.handleMessage sid headersSent body now).1
              = HandleMessageOutcome.handlerError 500 (-32603) (bodyIdOrNull body))) := by
  refine ⟨?_, ?_, ?_⟩
  · intro h
    simp [postMessages, h]
  · intro sid h
    unfold SSETransportManager.handleMessage
    rw [h]
  · intro sid s h
    unfold SSETransportManager.handleMessage
    rw [h]
    constructor
    · by_cases hf : s.transport.handlePostFails <;> by_cases hh : headersSent <;>
        simp [hf, hh]
    · intro hf hh
      simp [hf, hh]

/-- Witness for the message-submission theorem on concrete stores. -/
theorem message_submission_handling_witness :
    postMessages emptySSEManager Option.none false Option.none 5
      = (PostMessagesOutcome.rejected 400 (-32600) "Session ID is required" JsonId.null,
         emptySSEManager)
    ∧ sseManagerA.handleMessage "ghost" false Option.none 5
      = (HandleMessageOutcome.sessionNotFound 404 (-32000) JsonId.null, sseManagerA)
    ∧ ((sseManagerB.handleMessage "sse2" false (some (JsonId.num 7)) 5).2.sessions
        = mapSet sseManagerB.sessions "sse2" { failingSSESession with lastActivity := 5 }
       ∧ (sseManagerB.handleMessage "sse2" false (some (JsonId.num 7)) 5).1
        = HandleMessageOutcome.handlerError 500 (-32603) (bodyIdOrNull (some (JsonId.num 7)))) := by
  refine ⟨?_, ?_, ?_⟩
  · exact (message_submission_handling emptySSEManager Option.none false Option.none 5).1
      (by decide)
  · exact (message_submission_handling sseManagerA Option.none false Option.none 5).2.1
      "ghost" (by decide)
  · have h := (message_submission_handling sseManagerB Option.none false
      (some (JsonId.num 7)) 5).2.2 "sse2" failingSSESession (by decide)
    exact ⟨h.1, h.2 (by decide) rfl⟩

/-! Lemmas for first-occurrence placeholder substitution. -/

theorem replaceFirst_of_not_contains (pat rep : List Char) :
    ∀ s, listContainsPat pat s = false → replaceFirstList pat rep s = s := by
  intro s
  induction s with
  | nil =>
      intro h
      unfold listContainsPat at h
      unfold replaceFirstList
      simp [h]
  | cons c cs ih =>
      intro h
      unfold listContainsPat at h
      rw [Bool.or_eq_false_iff] at h
      unfold replaceFirstList
      rw [if_neg (by simp [h.1])]
      rw [ih h.2]

theorem replaceFirst_at_first (pat rep : List Char) :
    ∀ (i : Nat) (s : List Char), occursAtPos pat s i = true →
      (∀ j, j < i → occursAtPos pat s j = false) →
      replaceFirstList pat rep s = s.take i ++ rep ++ s.drop (i + pat.length) := by
  intro i
  induction i with
  | zero =>
      intro s h0 _
      unfold occursAtPos at h0
      rw [List.drop_zero] at h0
      cases s with
      | nil =>
          unfold replaceFirstList
          rw [if_pos h0]
          simp
      | cons c cs =>
          unfold replaceFirstList
          rw [if_pos h0]
          simp
  | succ i' ih =>
      intro s hI hJ
      have h0 : occursAtPos pat s 0 = false := hJ 0 (Nat.succ_pos i')
      unfold occursAtPos at h0
      rw [List.drop_zero] at h0
      cases s with
      | nil =>
          unfold occursAtPos at hI
          rw [List.drop_nil] at hI
          rw [h0] at hI
          exact absurd hI (by simp)
      | cons c cs =>
          unfold replaceFirstList
          rw [if_neg (by simp [h0])]
          have hI' : occursAtPos pat cs i' = true := by
            unfold occursAtPos at hI ⊢
            rw [List.drop_succ_cons] at hI
            exact hI
          have hJ' : ∀ j, j < i' → occursAtPos pat cs j = false := by
            intro j hj
            have hjs := hJ (j + 1) (Nat.succ_lt_succ hj)
            unfold occursAtPos at hjs ⊢
            rw [List.drop_succ_cons] at hjs
            exact hjs
          rw [ih cs hI' hJ']
          have harith : i' + 1 + pat.length = (i' + pat.length) + 1 := by omega
          rw [harith]
          simp [List.take_succ_cons, List.drop_succ_cons]

theorem substituteArgs_unchanged :
    ∀ (argsList : List (String × String)) (template : String),
      (∀ kv ∈ argsList, listContainsPat (placeholderPattern kv.1).data template.data = false) →
      substituteArgs template argsList = template := by
  intro argsList
  induction argsList with
  | nil => intro template _; rfl
  | cons kv t ih =>
      intro template h
      unfold substituteArgs
      rw [List.foldl_cons]
      have h1 := h kv (List.mem_cons_self _ _)
      have hrep : stringReplaceFirst template (placeholderPattern kv.1) kv.2 = template := by
        unfold stringReplaceFirst
        rw [replaceFirst_of_not_contains _ _ _ h1]
      rw [hrep]
      show substituteArgs template t = template
      exact ih template (fun kv' hkv' => h kv' (List.mem_cons_of_mem _ hkv'))

/-- C9: prompt placeholder substitution is lenient and first-occurrence
only.  A pass whose placeholder does not occur leaves the template exactly
unchanged (so supplied arguments without matching placeholders cause no
error, and placeholders whose keys are not supplied are never touched); and
a pass for a supplied key rewrites exactly the first occurrence of its
placeholder, leaving everything after it — including any further
occurrences of the same placeholder — verbatim. -/
theorem substitution_lenient_first_only :
    (∀ (template : String) (argsList : List (String × String)),
      (∀ kv ∈ argsList,
          listContainsPat (placeholderPattern kv.1).data template.data = false) →
        substituteArgs template argsList = template)
    ∧ (∀ (template key value : String) (i : Nat),
        occursAtPos (placeholderPattern key).data template.data i = true →
        (∀ j, j < i → occursAtPos (placeholderPattern key).data template.data j = false) →
          substituteArgs template [(key, value)]
            = String.mk (template.data.take i ++ value.data
                ++ template.data.drop (i + (placeholderPattern key).data.length))) := by
  constructor
  · intro template argsList h
    exact substituteArgs_unchanged argsList template h
  · intro template key value i hI hJ
    show stringReplaceFirst template (placeholderPattern key) value = _
    unfold stringReplaceFirst
    rw [replaceFirst_at_first _ _ i template.data hI hJ]

/-- Witness for lenient first-occurrence substitution: an unmatched
argument leaves the template unchanged, and a repeated placeholder is
replaced only at its first occurrence. -/
theorem substitution_lenient_first_only_witness :
    substituteArgs "Hello \x7b\x7bname\x7d\x7d" [("missing", "x")]
      = "Hello \x7b\x7bname\x7d\x7d"
    ∧ substituteArgs "\x7b\x7bq\x7d\x7d and \x7b\x7bq\x7d\x7d" [("q", "A")]
      = "A and \x7b\x7bq\x7d\x7d" := by
  constructor
  · exact substitution_lenient_first_only.1 _ _ (by decide)
  · have h := substitution_lenient_first_only.2 "\x7b\x7bq\x7d\x7d and \x7b\x7bq\x7d\x7d"
      "q" "A" 0 (by decide) (fun j hj => absurd hj (Nat.not_lt_zero j))
    rw [h]
    decide

/-! The capability gate and the tool-failure envelope. -/

theorem not_eq_of_startsWith_false (m lit p : String)
    (h : strStartsWith m p = true) (hlit : strStartsWith lit p = false) : m ≠ lit := by
  intro he
  subst he
  rw [h] at hlit
  exact Bool.noConfusion hlit

/-- C3: for every capability-gated method (any `tools/*`, `resources/*` or
`prompts/*` request), when the corresponding capability is not negotiated
for the handler's session (including when no session exists), the router
answers with a structured -32601 error, leaves the state untouched and
executes no underlying operation (no tool invocation, no catalog lookup:
the trace is empty). -/
theorem capability_gate_blocks (st : HttpHandlerState) (env : Env)
    (request : JsonRpcRequest) (c : CapKey)
    (hc : methodRequiredCapability request.method = some c)
    (hcap : (st.sessionManager.hasCapability st.sessionId c).1 = false) :
    ∃ msg, routeRequest st env request = (RouteOutcome.err (-32601) msg, st, []) := by
  unfold methodRequiredCapability at hc
  unfold routeRequest
  split_ifs at hc with hp1 hp2 hp3
  · -- tools/* methods
    have hcc := Option.some.inj hc
    subst hcc
    have n1 := not_eq_of_startsWith_false request.method "ping" "tools/" hp1 (by decide)
    have n2 := not_eq_of_startsWith_false request.method "initialize" "tools/" hp1 (by decide)
    have n5 := not_eq_of_startsWith_false request.method "resources/list" "tools/" hp1 (by decide)
    have n6 := not_eq_of_startsWith_false request.method "resources/templates/list" "tools/"
      hp1 (by decide)
    have n7 := not_eq_of_startsWith_false request.method "resources/read" "tools/" hp1 (by decide)
    have n8 := not_eq_of_startsWith_false request.method "prompts/list" "tools/" hp1 (by decide)
    have n9 := not_eq_of_startsWith_false request.method "prompts/get" "tools/" hp1 (by decide)
    rw [if_neg n1, if_neg n2]
    by_cases e3 : request.method = "tools/list"
    · rw [if_pos e3, if_pos hcap]
      exact ⟨_, rfl⟩
    · rw [if_neg e3]
      by_cases e4 : request.method = "tools/call"
      · rw [if_pos e4, if_pos hcap]
        exact ⟨_, rfl⟩
      · rw [if_neg e4, if_neg n5, if_neg n6, if_neg n7, if_neg n8, if_neg n9]
        exact ⟨_, rfl⟩
  · -- resources/* methods
    have hcc := Option.some.inj hc
    subst hcc
    have n1 := not_eq_of_startsWith_false request.method "ping" "resources/" hp2 (by decide)
    have n2 := not_eq_of_startsWith_false request.method "initialize" "resources/" hp2 (by decide)
    have n3 := not_eq_of_startsWith_false request.method "tools/list" "resources/" hp2 (by decide)
    have n4 := not_eq_of_startsWith_false request.method "tools/call" "resources/" hp2 (by decide)
    have n8 := not_eq_of_startsWith_false request.method "prompts/list" "resources/" hp2 (by decide)
    have n9 := not_eq_of_startsWith_false request.method "prompts/get" "resources/" hp2 (by decide)
    rw [if_neg n1, if_neg n2, if_neg n3, if_neg n4]
    by_cases e5 : request.method = "resources/list"
    · rw [if_pos e5, if_pos hcap]
      exact ⟨_, rfl⟩
    · rw [if_neg e5]
      by_cases e6 : request.method = "resources/templates/list"
      · rw [if_pos e6, if_pos hcap]
        exact ⟨_, rfl⟩
      · rw [if_neg e6]
        by_cases e7 : request.method = "resources/read"
        · rw [if_pos e7, if_pos hcap]
          exact ⟨_, rfl⟩
        · rw [if_neg e7, if_neg n8, if_neg n9]
          exact ⟨_, rfl⟩
  · -- prompts/* methods
    have hcc := Option.some.inj hc
    subst hcc
    have n1 := not_eq_of_startsWith_false request.method "ping" "prompts/" hp3 (by decide)
    have n2 := not_eq_of_startsWith_false request.method "initialize" "prompts/" hp3 (by decide)
    have n3 := not_eq_of_startsWith_false request.method "tools/list" "prompts/" hp3 (by decide)
    have n4 := not_eq_of_startsWith_false request.method "tools/call" "prompts/" hp3 (by decide)
    have n5 := not_eq_of_startsWith_false request.method "resources/list" "prompts/" hp3 (by decide)
    have n6 := not_eq_of_startsWith_false request.method "resources/templates/list" "prompts/"
      hp3 (by decide)
    have n7 := not_eq_of_startsWith_false request.method "resources/read" "prompts/" hp3 (by decide)
    rw [if_neg n1, if_neg n2, if_neg n3, if_neg n4, if_neg n5, if_neg n6, if_neg n7]
    by_cases e8 : request.method = "prompts/list"
    · rw [if_pos e8, if_pos hcap]
      exact ⟨_, rfl⟩
    · rw [if_neg e8]
      by_cases e9 : request.method = "prompts/get"
      · rw [if_pos e9, if_pos hcap]
        exact ⟨_, rfl⟩
      · rw [if_neg e9]
        exact ⟨_, rfl⟩

/-- Witness for the capability gate: after `initialize` advertising only
`tools:{}` against the default server capabilities, a `resources/list` on
the same session is refused with -32601 and nothing executes. -/
theorem capability_gate_blocks_witness :
    ∃ msg, routeRequest stateAfterToolsInit envZero resourcesListRequest
      = (RouteOutcome.err (-32601) msg, stateAfterToolsInit, []) :=
  capability_gate_blocks stateAfterToolsInit envZero resourcesListRequest CapKey.resources
    (by decide) (by decide)

/-- C4 counterexample: on `tools/call` of `random_number` with
`min = 10 > max = 5` (a tool that executes and returns `success:false`),
the handler answers with a success envelope whose content carries the error
text but whose `isError` flag is absent — the content is not flagged as an
error, contradicting the claim's "content is flagged as an error". -/
theorem tool_failure_unflagged_counterexample :
    (handleRequest stateAfterToolsInit envZero failingRandomCallRequest).1
      = { id := JsonId.num 42
          result := some (RpcResult.toolCallResult
            [ContentItem.text "Minimum value cannot be greater than maximum value"] none)
          error := none, status := 200 }
    ∧ toolCallErrFlag
        (handleRequest stateAfterToolsInit envZero failingRandomCallRequest).1.result
      ≠ some true := by
  constructor
  · decide
  · decide

/-- C4 (amended): for a `tools/call` with a non-null identifier whose named
tool executes but fails (`success:false`), the router returns a success
envelope — `result` present, `error` absent, HTTP 200, identifier echoed,
state untouched — whose content carries the tool's error message as plain
text with no `isError` flag (the flag is set only when the dispatch throws,
i.e. for an unknown tool name), not a transport-level error response. -/
theorem tool_failure_soft_envelope (st : HttpHandlerState) (env : Env)
    (request : JsonRpcRequest) (r : ToolResult)
    (hv : request.jsonrpc = "2.0")
    (hm : request.method = "tools/call")
    (_hid : request.id ≠ JsonId.null)
    (hcap : (st.sessionManager.hasCapability st.sessionId CapKey.tools).1 = true)
    (hr : toolDispatch env request.params.name (request.params.arguments.getD {}) = some r)
    (hfail : r.success = false) :
    handleRequest st env request
      = ({ id := request.id
           result := some (RpcResult.toolCallResult
             [ContentItem.text (r.error.getD "")] none)
           error := none, status := 200 }, st,
         [TraceEvent.toolInvoked request.params.name]) := by
  have hne : ∀ s : String, ("tools/call" = s → False) → ¬(request.method = s) := by
    intro s hdiff he
    rw [hm] at he
    exact hdiff he
  unfold handleRequest
  rw [if_neg (by intro hwr; exact hwr hv)]
  rw [if_neg (hne "" (by decide))]
  unfold routeRequest
  rw [if_neg (hne "ping" (by decide)), if_neg (hne "initialize" (by decide)),
    if_neg (hne "tools/list" (by decide)), if_pos hm]
  rw [if_neg (by simp [hcap])]
  rw [hr]
  simp only [hfail, Bool.false_eq_true, if_false]

/-- Witness for the soft-failure envelope at the concrete failing
`random_number` call. -/
theorem tool_failure_soft_envelope_witness :
    handleRequest stateAfterToolsInit envZero failingRandomCallRequest
      = ({ id := JsonId.num 42
           result := some (RpcResult.toolCallResult
             [ContentItem.text "Minimum value cannot be greater than maximum value"] none)
           error := none, status := 200 }, stateAfterToolsInit,
         [TraceEvent.toolInvoked "random_number"]) := by
  have h := tool_failure_soft_envelope stateAfterToolsInit envZero failingRandomCallRequest
    { success := false, error := some "Minimum value cannot be greater than maximum value" }
    rfl rfl (by decide) (by decide) (by decide) rfl
  exact h

end MCP
